import Mathlib

/-!
Verification of `IEEE_PES_GTD_case_study.py` (function `test_case4`).

The script loads the pandapower CIGRE medium-voltage template network
(`pn.create_cigre_network_mv(with_der="pv_wind")`), scales the static
generators, marks four loads controllable, and builds a 13-row
`flexibility` dataframe with pseudo-random costs and reactive-power
boxes, seeded for reproducibility.

The embedding below translates the table manipulations of the source
into pure Lean functions over lists of records; each column assignment
of the script becomes a named stage, in source order, and `test_case4`
assembles them.  Rationals stand for the Python floats (every number
the claims touch is an exact decimal).
-/

set_option maxRecDepth 4000

namespace GTD

/-- One row of the pandapower `net.load` table (the columns the script
touches: `bus`, `p_mw`, `q_mvar`, and the `controllable` flag the script
adds).  Template rows carry `controllable := false`; the script
overwrites the whole column. -/
structure LoadRow where
  bus : Nat
  p_mw : ℚ
  q_mvar : ℚ
  controllable : Bool
deriving DecidableEq, Inhabited, Repr

/-- One row of the pandapower `net.sgen` table (columns the script
touches: `bus`, `p_mw`, `q_mvar`). -/
structure SgenRow where
  bus : Nat
  p_mw : ℚ
  q_mvar : ℚ
deriving DecidableEq, Inhabited, Repr

/-- Template `net.load` of `pandapower.networks.create_cigre_network_mv`
(18 rows: 10 residential then 8 commercial/industrial loads, in creation
order).  `p_mw = sn_mva * cos_phi` exactly; `q_mvar` is a 6-decimal
rational approximation of `sn_mva * sin(arccos(cos_phi))` (no claim
depends on the exact `q_mvar` values, only on their sign convention). -/
def cigre_load : List LoadRow :=
  [ ⟨1,  14.994,   3.044662, false⟩,  -- Load R1,  sn 15.3,  cosphi 0.98
    ⟨3,  0.27645,  0.069285, false⟩,  -- Load R3,  sn 0.285, cosphi 0.97
    ⟨4,  0.43165,  0.108182, false⟩,  -- Load R4,  sn 0.445, cosphi 0.97
    ⟨5,  0.7275,   0.182329, false⟩,  -- Load R5,  sn 0.750, cosphi 0.97
    ⟨6,  0.54805,  0.137354, false⟩,  -- Load R6,  sn 0.565, cosphi 0.97
    ⟨8,  0.58685,  0.147078, false⟩,  -- Load R8,  sn 0.605, cosphi 0.97
    ⟨10, 0.4753,   0.119121, false⟩,  -- Load R10, sn 0.490, cosphi 0.97
    ⟨11, 0.3298,   0.082656, false⟩,  -- Load R11, sn 0.340, cosphi 0.97
    ⟨12, 14.994,   3.044662, false⟩,  -- Load R12, sn 15.3,  cosphi 0.98
    ⟨14, 0.20855,  0.052268, false⟩,  -- Load R14, sn 0.215, cosphi 0.97
    ⟨1,  4.845,    1.592475, false⟩,  -- Load CI1,  sn 5.10, cosphi 0.95
    ⟨3,  0.22525,  0.139597, false⟩,  -- Load CI3,  sn 0.265, cosphi 0.85
    ⟨7,  0.0765,   0.047410, false⟩,  -- Load CI7,  sn 0.090, cosphi 0.85
    ⟨9,  0.57375,  0.355578, false⟩,  -- Load CI9,  sn 0.675, cosphi 0.85
    ⟨10, 0.068,    0.042143, false⟩,  -- Load CI10, sn 0.080, cosphi 0.85
    ⟨12, 5.016,    1.648680, false⟩,  -- Load CI12, sn 5.28, cosphi 0.95
    ⟨13, 0.034,    0.021071, false⟩,  -- Load CI13, sn 0.040, cosphi 0.85
    ⟨14, 0.3315,   0.205445, false⟩ ] -- Load CI14, sn 0.390, cosphi 0.85

/-- Template `net.sgen` of `create_cigre_network_mv(with_der="pv_wind")`:
8 photovoltaic units and, last, the wind turbine WKA 7. -/
def cigre_sgen : List SgenRow :=
  [ ⟨3,  0.02, 0⟩,   -- PV 3
    ⟨4,  0.02, 0⟩,   -- PV 4
    ⟨5,  0.03, 0⟩,   -- PV 5
    ⟨6,  0.03, 0⟩,   -- PV 6
    ⟨8,  0.03, 0⟩,   -- PV 8
    ⟨9,  0.03, 0⟩,   -- PV 9
    ⟨10, 0.04, 0⟩,   -- PV 10
    ⟨11, 0.01, 0⟩,   -- PV 11
    ⟨7,  1.5,  0⟩ ]  -- WKA 7 (wind turbine, last row)

/-- The `controllable` column the script assigns to `net.load`
(source lines 22-23): 4 dispatchable loads, the rest non-dispatchable. -/
def controllable_flags : List Bool :=
  [true, false, false, false, false, false, false, false, true,
   false, false, false, false, false, false, false, true, true]

/-- `net.load['controllable'] = [...]`: overwrite the controllable column. -/
def set_controllable (loads : List LoadRow) (flags : List Bool) : List LoadRow :=
  (loads.zip flags).map (fun p => { p.1 with controllable := p.2 })

/-- `net.sgen['p_mw'].iloc[:-1] *= 30` (source line 19): every sgen row
except the last has its `p_mw` multiplied by 30; the last row (the wind
turbine) is unchanged. -/
def scale_all_but_last : List SgenRow → List SgenRow
  | [] => []
  | [x] => [x]
  | x :: y :: xs => { x with p_mw := 30 * x.p_mw } :: scale_all_but_last (y :: xs)

/-!  A model of numpy's seeded pseudo-random generator.

`np.random.seed(n)` resets the global generator state as a function of
`n` alone; each subsequent `np.random.random()` draw returns a float in
[0, 1) and advances the state.  The script only relies on those two
facts (values in [0, 1); identical seed gives identical draws), so the
concrete update below is a stand-in linear congruential generator over
a state of type `Nat`, producing 6-decimal rationals in [0, 1). -/

/-- The generator state right after `np.random.seed n`. -/
def npSeed (n : Nat) : Nat := n

/-- One draw: a rational in [0, 1) and the successor state. -/
def nextRand (s : Nat) : ℚ × Nat :=
  ((((s * 1103515245 + 12345) % 2147483648 % 1000000 : Nat) : ℚ) / 1000000,
   (s * 1103515245 + 12345) % 2147483648)

/-- `np.random.random(n)`: a list of `n` draws, threading the state. -/
def npRandomList : Nat → Nat → List ℚ × Nat
  | 0, s => ([], s)
  | Nat.succ n, s =>
      ((nextRand s).1 :: (npRandomList n (nextRand s).2).1,
       (npRandomList n (nextRand s).2).2)

/-- `np.round(x, 3)`: round to 3 decimal places. -/
def round3 (x : ℚ) : ℚ := (round (1000 * x) : ℤ) / 1000

/-- The `FPU_info` cell of a flexibility row.  The script stores a Python
dict: for controllable loads `{'pf': cos(arctan(q/p))}` — we record the
tangent `q/p`, which determines the stored power factor — and for Box
units `{'q_min': -1 - f, 'q_max': 1 + f}`. -/
inductive FPUInfo where
  | pfOfTan (t : ℚ)
  | box (q_min q_max : ℚ)
deriving DecidableEq, Inhabited, Repr

/-- One row of the `net.flexibility` dataframe built by `test_case4`
(source lines 44-105), with all of its columns. -/
structure FlexRow where
  element : Nat
  et : String
  up_quantity : ℚ
  up_cost : ℚ
  down_quantity : ℚ
  down_cost : ℚ
  FPU_type : String
  FPU_info : FPUInfo
  p_setpoint : ℚ
  q_setpoint : ℚ
  bus : Nat
deriving DecidableEq, Inhabited, Repr

/-- The parts of the pandapower network object that `test_case4` builds
and that the claims mention. -/
structure Net where
  load : List LoadRow
  sgen : List SgenRow
  flexibility : List FlexRow
deriving DecidableEq, Repr

/-- The columns of a flexibility row filled in before the cost and
setpoint columns (source lines 48-81). -/
structure FlexBase where
  element : Nat
  et : String
  up_quantity : ℚ
  down_quantity : ℚ
  FPU_type : String
  FPU_info : FPUInfo
deriving DecidableEq, Repr

/-- `number_of_pvs = 0` (source line 67). -/
def number_of_pvs : Nat := 0

/-- `number_of_box = 9` (source line 68). -/
def number_of_box : Nat := 9

/-- Table lookup `table.loc[i]` on a list-indexed table. -/
def locLoad (loads : List LoadRow) (i : Nat) : LoadRow := loads.getD i default

/-- Table lookup `table.loc[i]` on the sgen table. -/
def locSgen (sgens : List SgenRow) (i : Nat) : SgenRow := sgens.getD i default

/-- `net.load` after line 22-23: the template loads with the assigned
controllable column. -/
def net_load : List LoadRow := set_controllable cigre_load controllable_flags

/-- `net.sgen` after line 19: the template sgens with all but the last
`p_mw` scaled by 30. -/
def net_sgen : List SgenRow := scale_all_but_last cigre_sgen

/-- `number_of_dispatchable_loads` (source line 29). -/
def number_of_dispatchable_loads : Nat :=
  (net_load.filter (fun l => l.controllable)).length

/-- Rows 0 .. `number_of_dispatchable_loads - 1` of the flexibility
table before the cost and setpoint columns (source lines 48-60): one row
per controllable load, in load-table index order, with `element` the
load-table index, `et = 'load'`, up and down quantity half the load's
`p_mw`, `FPU_type = 'load'` and the power-factor info dict. -/
def loadBase : List FlexBase :=
  (net_load.enum.filter (fun p => p.2.controllable)).map fun p =>
    { element := p.1
      et := "load"
      up_quantity := p.2.p_mw / 2
      down_quantity := p.2.p_mw / 2
      FPU_type := "load"
      FPU_info := FPUInfo.pfOfTan (p.2.q_mvar / p.2.p_mw) }

/-- `fuzz = np.random.random(number_of_box).round(3)` after
`np.random.seed(0)` (source lines 77-78). -/
def fuzz : List ℚ := ((npRandomList number_of_box (npSeed 0)).1).map round3

/-- `types = ['PV']*number_of_pvs + ['Box']*number_of_box`
(source lines 70-71). -/
def types : List String :=
  List.replicate number_of_pvs "PV" ++ List.replicate number_of_box "Box"

/-- `extra_info` (source lines 75-80): the per-sgen `FPU_info` cells, a
power-factor dict per PV followed by a reactive-power box per Box unit. -/
def extra_info : List FPUInfo :=
  (List.replicate number_of_pvs ((9 : ℚ)/10)).map FPUInfo.pfOfTan
    ++ fuzz.map (fun f => FPUInfo.box (-1 - f) (1 + f))

/-- Rows `number_of_dispatchable_loads` .. end of the flexibility table
before the cost and setpoint columns (source lines 63-66, 72, 81): one
row per sgen with `element` the sgen index, `et = 'sgen'`, up quantity
`1.1 * p_mw`, down quantity `p_mw`, and the type and info cells. -/
def sgenBase : List FlexBase :=
  (net_sgen.enum.zip (types.zip extra_info)).map fun p =>
    { element := p.1.1
      et := "sgen"
      up_quantity := 11/10 * p.1.2.p_mw
      down_quantity := p.1.2.p_mw
      FPU_type := p.2.1
      FPU_info := p.2.2 }

/-- The flexibility rows before the cost and setpoint columns: load rows
first (rows 0-3), then sgen rows (rows 4-12). -/
def flexBase : List FlexBase := loadBase ++ sgenBase

/-- `net.flexibility['up_cost'] = 90 + 20*np.random.random(13).round(3)`
after `np.random.seed(1)` (source lines 84-85). -/
def up_costs : List ℚ :=
  ((npRandomList flexBase.length (npSeed 1)).1).map (fun r => 90 + 20 * round3 r)

/-- `net.flexibility['down_cost'] = 100 - 20*np.random.random(13).round(3)`
after `np.random.seed(2)` (source lines 87-88). -/
def down_costs : List ℚ :=
  ((npRandomList flexBase.length (npSeed 2)).1).map (fun r => 100 - 20 * round3 r)

/-- Completes one flexibility row (source lines 91-105): attach the cost
cells and compute `p_setpoint`, `q_setpoint` and `bus` through
`getattr(net, et).loc[element]`, inverting the sign of both setpoints on
load rows (lines 95 and 101). -/
def mkRow (b : FlexBase) (uc dc : ℚ) : FlexRow :=
  { element := b.element
    et := b.et
    up_quantity := b.up_quantity
    up_cost := uc
    down_quantity := b.down_quantity
    down_cost := dc
    FPU_type := b.FPU_type
    FPU_info := b.FPU_info
    p_setpoint := if b.et = "load" then -(locLoad net_load b.element).p_mw
                  else (locSgen net_sgen b.element).p_mw
    q_setpoint := if b.et = "load" then -(locLoad net_load b.element).q_mvar
                  else (locSgen net_sgen b.element).q_mvar
    bus := if b.et = "load" then (locLoad net_load b.element).bus
           else (locSgen net_sgen b.element).bus }

/-- The finished `net.flexibility` dataframe: the base rows zipped with
the two cost columns and completed row by row. -/
def flexRows : List FlexRow :=
  ((flexBase.zip up_costs).zip down_costs).map fun p => mkRow p.1.1 p.1.2 p.2

/-- The embedding of `test_case4` (the whole source file).  It takes the
incoming numpy generator state and returns the augmented network
together with the final generator state.  The incoming state is never
read: every draw follows one of the fixed reseeds `np.random.seed(0)`,
`seed(1)`, `seed(2)` (source lines 77, 84, 87), and the state the caller
is left with is the one after the 13 draws that follow `seed(2)`. -/
def test_case4 (rng0 : Nat) : Net × Nat :=
  let _ := rng0
  ({ load := net_load, sgen := net_sgen, flexibility := flexRows },
   (npRandomList flexBase.length (npSeed 2)).2)

/-- The network returned by `test_case4` (independent of the incoming
generator state; instantiated at state 0). -/
def theNet : Net := (test_case4 0).1

/-- The flexibility table of the returned network. -/
def flexTable : List FlexRow := theNet.flexibility

lemma flexTable_eq_rows : flexTable = flexRows := rfl

lemma theNet_load_eq : theNet.load = net_load := rfl

lemma theNet_sgen_eq : theNet.sgen = net_sgen := rfl

lemma nextRand_nonneg (s : Nat) : 0 ≤ (nextRand s).1 := by
  unfold nextRand
  positivity

lemma nextRand_lt_one (s : Nat) : (nextRand s).1 < 1 := by
  unfold nextRand
  rw [div_lt_one (by norm_num)]
  exact_mod_cast Nat.mod_lt _ (by norm_num)

lemma npRandomList_mem_bounds (n s : Nat) :
    ∀ x ∈ (npRandomList n s).1, 0 ≤ x ∧ x < 1 := by
  induction n generalizing s with
  | zero => intro x hx; simp [npRandomList] at hx
  | succ n ih =>
      intro x hx
      simp only [npRandomList, List.mem_cons] at hx
      rcases hx with rfl | hx
      · exact ⟨nextRand_nonneg s, nextRand_lt_one s⟩
      · exact ih _ x hx

lemma round3_bounds {x : ℚ} (h0 : 0 ≤ x) (h1 : x < 1) :
    0 ≤ round3 x ∧ round3 x ≤ 1 := by
  unfold round3
  rw [round_eq]
  constructor
  · apply div_nonneg _ (by norm_num)
    have h : (0 : ℤ) ≤ ⌊1000 * x + 1/2⌋ := by
      apply Int.le_floor.mpr
      push_cast
      linarith
    exact_mod_cast h
  · rw [div_le_one (by norm_num)]
    have h : ⌊1000 * x + 1/2⌋ < 1001 := by
      apply Int.floor_lt.mpr
      push_cast
      linarith
    have h2 : ⌊1000 * x + 1/2⌋ ≤ 1000 := by omega
    exact_mod_cast h2

lemma up_costs_bounds : ∀ c ∈ up_costs, 90 ≤ c ∧ c ≤ 110 := by
  intro c hc
  obtain ⟨x, hx, rfl⟩ := List.mem_map.mp hc
  obtain ⟨hx0, hx1⟩ := npRandomList_mem_bounds _ _ x hx
  obtain ⟨hr0, hr1⟩ := round3_bounds hx0 hx1
  constructor <;> linarith

lemma down_costs_bounds : ∀ c ∈ down_costs, 80 ≤ c ∧ c ≤ 100 := by
  intro c hc
  obtain ⟨x, hx, rfl⟩ := List.mem_map.mp hc
  obtain ⟨hx0, hx1⟩ := npRandomList_mem_bounds _ _ x hx
  obtain ⟨hr0, hr1⟩ := round3_bounds hx0 hx1
  constructor <;> linarith

lemma fuzz_bounds : ∀ f ∈ fuzz, 0 ≤ f ∧ f ≤ 1 := by
  intro f hf
  obtain ⟨x, hx, rfl⟩ := List.mem_map.mp hf
  obtain ⟨hx0, hx1⟩ := npRandomList_mem_bounds _ _ x hx
  exact round3_bounds hx0 hx1

lemma extra_info_spec : ∀ info ∈ extra_info,
    ∃ f ∈ fuzz, info = FPUInfo.box (-1 - f) (1 + f) := by
  intro info h
  unfold extra_info at h
  rw [List.mem_append] at h
  rcases h with h | h
  · simp [number_of_pvs] at h
  · obtain ⟨f, hf, rfl⟩ := List.mem_map.mp h
    exact ⟨f, hf, rfl⟩

/-- Decomposition of a flexibility row: it is a completed base row, with
its cost cells drawn from the two cost columns. -/
lemma mem_flexRows_elim {r : FlexRow} (hr : r ∈ flexRows) :
    ∃ b uc dc, b ∈ flexBase ∧ uc ∈ up_costs ∧ dc ∈ down_costs ∧
      r = mkRow b uc dc := by
  obtain ⟨p, hp, rfl⟩ := List.mem_map.mp hr
  obtain ⟨h1, h2⟩ := List.of_mem_zip hp
  obtain ⟨h3, h4⟩ := List.of_mem_zip h1
  exact ⟨p.1.1, p.1.2, p.2, h3, h4, h2, rfl⟩

/-- Characterization of the load part of the base rows. -/
lemma loadBase_spec : ∀ b ∈ loadBase,
    b.et = "load" ∧ b.element < net_load.length ∧
    ∃ l ∈ net_load, b.up_quantity = l.p_mw / 2 ∧ b.down_quantity = l.p_mw / 2 := by
  intro b hb
  obtain ⟨p, hp, rfl⟩ := List.mem_map.mp hb
  have hp2 : p ∈ net_load.enum := (List.mem_filter.mp hp).1
  have hg := List.mem_enum_iff_getElem?.mp hp2
  obtain ⟨hlt, hget⟩ := List.getElem?_eq_some.mp hg
  refine ⟨rfl, hlt, p.2, ?_, rfl, rfl⟩
  exact hget ▸ List.getElem_mem hlt

/-- Characterization of the sgen part of the base rows. -/
lemma sgenBase_spec : ∀ b ∈ sgenBase,
    b.et = "sgen" ∧ b.element < net_sgen.length ∧
    locSgen net_sgen b.element ∈ net_sgen ∧
    b.up_quantity = 11/10 * (locSgen net_sgen b.element).p_mw ∧
    b.down_quantity = (locSgen net_sgen b.element).p_mw ∧
    b.FPU_info ∈ extra_info := by
  intro b hb
  obtain ⟨p, hp, rfl⟩ := List.mem_map.mp hb
  obtain ⟨h1, h2⟩ := List.of_mem_zip hp
  have hg := List.mem_enum_iff_getElem?.mp h1
  obtain ⟨hlt, hget⟩ := List.getElem?_eq_some.mp hg
  have hloc : locSgen net_sgen p.1.1 = p.1.2 := by
    unfold locSgen
    rw [List.getD_eq_getElem?_getD, hg, Option.getD_some]
  have hmem : locSgen net_sgen p.1.1 ∈ net_sgen :=
    hloc ▸ (hget ▸ List.getElem_mem hlt)
  exact ⟨rfl, hlt, hmem, by simp [hloc], by simp [hloc], (List.of_mem_zip h2).2⟩

/-- Every base row lies in the load part or in the sgen part. -/
lemma flexBase_cases {b : FlexBase} (hb : b ∈ flexBase) :
    b ∈ loadBase ∨ b ∈ sgenBase :=
  List.mem_append.mp hb

lemma net_load_p_nonneg : ∀ l ∈ net_load, 0 ≤ l.p_mw := by
  with_unfolding_all decide

lemma net_sgen_p_nonneg : ∀ g ∈ net_sgen, 0 ≤ g.p_mw := by
  with_unfolding_all decide

lemma flexTable_length_eq : flexTable.length = 13 := by
  with_unfolding_all decide

lemma zero_lt_flexLen : 0 < flexTable.length := by
  rw [flexTable_length_eq]; norm_num

lemma four_lt_flexLen : 4 < flexTable.length := by
  rw [flexTable_length_eq]; norm_num

/-- Row 0 of the flexibility table (the first controllable-load row). -/
def flexRow0 : FlexRow := flexTable.get ⟨0, zero_lt_flexLen⟩

/-- Row 4 of the flexibility table (the first static-generator row). -/
def flexRow4 : FlexRow := flexTable.get ⟨4, four_lt_flexLen⟩

lemma flexRow0_mem : flexRow0 ∈ flexTable := List.get_mem _ _ _

lemma flexRow4_mem : flexRow4 ∈ flexTable := List.get_mem _ _ _

lemma flexRow0_et : flexRow0.et = "load" := by
  with_unfolding_all decide

lemma flexRow4_et : flexRow4.et = "sgen" := by
  with_unfolding_all decide

/-- C1: the flexibility table returned by `test_case4` has exactly 13
rows: one per controllable load (4 loads, those whose controllable flag
is set true) plus one per static-generator unit (9 sgen rows of the
template network). -/
theorem C1_row_count :
    flexTable.length = 13 ∧
    number_of_dispatchable_loads = 4 ∧
    theNet.sgen.length = 9 ∧
    cigre_sgen.length = 9 ∧
    flexTable.length = number_of_dispatchable_loads + theNet.sgen.length := by
  with_unfolding_all decide

/-- C2: running `test_case4` twice produces identical flexibility
tables, whatever numpy generator state each run begins in, because the
generator is re-seeded with the fixed seeds 0, 1, 2 before each draw. -/
theorem C2_determinism (s1 s2 : Nat) :
    (test_case4 s1).1.flexibility = (test_case4 s2).1.flexibility := rfl

/-- C3: every row of the flexibility table has `up_cost` in [90, 110]
and `down_cost` in [80, 100] (the costs are `90 + 20*r` and
`100 - 20*r` for draws `r` in [0, 1) rounded to 3 decimals). -/
theorem C3_cost_bounds :
    ∀ r ∈ flexTable,
      (90 ≤ r.up_cost ∧ r.up_cost ≤ 110) ∧
      (80 ≤ r.down_cost ∧ r.down_cost ≤ 100) := by
  intro r hr
  rw [flexTable_eq_rows] at hr
  obtain ⟨b, uc, dc, _, huc, hdc, rfl⟩ := mem_flexRows_elim hr
  exact ⟨up_costs_bounds uc huc, down_costs_bounds dc hdc⟩

/-- C3 witness: the bounds hold at row 0 of the table. -/
theorem C3_cost_bounds_witness :
    (90 ≤ flexRow0.up_cost ∧ flexRow0.up_cost ≤ 110) ∧
    (80 ≤ flexRow0.down_cost ∧ flexRow0.down_cost ≤ 100) :=
  C3_cost_bounds flexRow0 flexRow0_mem

/-- C4: every row of the flexibility table has non-negative
`up_quantity` and `down_quantity`. -/
theorem C4_quantities_nonneg :
    ∀ r ∈ flexTable, 0 ≤ r.up_quantity ∧ 0 ≤ r.down_quantity := by
  intro r hr
  rw [flexTable_eq_rows] at hr
  obtain ⟨b, uc, dc, hb, _, _, rfl⟩ := mem_flexRows_elim hr
  show 0 ≤ b.up_quantity ∧ 0 ≤ b.down_quantity
  rcases flexBase_cases hb with h | h
  · obtain ⟨_, _, l, hl, hu, hd⟩ := loadBase_spec b h
    have hp := net_load_p_nonneg l hl
    rw [hu, hd]
    exact ⟨div_nonneg hp (by norm_num), div_nonneg hp (by norm_num)⟩
  · obtain ⟨_, _, hmem, hu, hd, _⟩ := sgenBase_spec b h
    have hp := net_sgen_p_nonneg _ hmem
    rw [hu, hd]
    exact ⟨mul_nonneg (by norm_num) hp, hp⟩

/-- C4 witness: non-negativity holds at row 0 of the table. -/
theorem C4_quantities_nonneg_witness :
    0 ≤ flexRow0.up_quantity ∧ 0 ≤ flexRow0.down_quantity :=
  C4_quantities_nonneg flexRow0 flexRow0_mem

/-- C5: every flexibility row whose `et` is "load" has `p_setpoint`
equal to the negation of the `p_mw` of the referenced load-table row
and `q_setpoint` equal to the negation of its `q_mvar`. -/
theorem C5_load_setpoint_sign :
    ∀ r ∈ flexTable, r.et = "load" →
      r.p_setpoint = -(locLoad theNet.load r.element).p_mw ∧
      r.q_setpoint = -(locLoad theNet.load r.element).q_mvar := by
  intro r hr hl
  rw [flexTable_eq_rows] at hr
  obtain ⟨b, uc, dc, _, _, _, rfl⟩ := mem_flexRows_elim hr
  have het : b.et = "load" := hl
  constructor <;> simp [mkRow, het, theNet_load_eq]

/-- C5 witness: the sign convention holds at row 0, a load row. -/
theorem C5_load_setpoint_sign_witness :
    flexRow0.p_setpoint = -(locLoad theNet.load flexRow0.element).p_mw ∧
    flexRow0.q_setpoint = -(locLoad theNet.load flexRow0.element).q_mvar :=
  C5_load_setpoint_sign flexRow0 flexRow0_mem flexRow0_et

/-- C6 counterexample: row 4 of the flexibility table (the first
static-generator row) belongs to the table yet its `et` value is
neither "load" nor "generator" — the code stores the string "sgen"
(source line 64), so the claim as stated is false. -/
theorem C6_counterexample :
    flexRow4 ∈ flexTable ∧
    flexRow4.et = "sgen" ∧
    flexRow4.et ≠ "load" ∧
    flexRow4.et ≠ "generator" :=
  ⟨flexRow4_mem, flexRow4_et,
   by rw [flexRow4_et]; decide, by rw [flexRow4_et]; decide⟩

/-- C6 (amended): every row of the flexibility table has `et` equal to
the string "load" or the string "sgen", and no other value. -/
theorem C6_et_values :
    ∀ r ∈ flexTable, r.et = "load" ∨ r.et = "sgen" := by
  intro r hr
  rw [flexTable_eq_rows] at hr
  obtain ⟨b, uc, dc, hb, _, _, rfl⟩ := mem_flexRows_elim hr
  show b.et = "load" ∨ b.et = "sgen"
  rcases flexBase_cases hb with h | h
  · exact Or.inl (loadBase_spec b h).1
  · exact Or.inr (sgenBase_spec b h).1

/-- C6 witness: row 0 carries one of the two `et` values. -/
theorem C6_et_values_witness :
    flexRow0.et = "load" ∨ flexRow0.et = "sgen" :=
  C6_et_values flexRow0 flexRow0_mem

/-- C7: every flexibility row resolves through its (element, et) pair
to exactly one row of the corresponding device table — a valid index of
the load table when `et` is "load" and of the sgen table when `et` is
"sgen" — and no two flexibility rows carry the same (element, et) pair. -/
theorem C7_element_resolution :
    (∀ r ∈ flexTable,
      (r.et = "load" → r.element < theNet.load.length) ∧
      (r.et = "sgen" → r.element < theNet.sgen.length)) ∧
    (flexTable.map (fun r => (r.element, r.et))).Nodup := by
  constructor
  · intro r hr
    rw [flexTable_eq_rows] at hr
    obtain ⟨b, uc, dc, hb, _, _, rfl⟩ := mem_flexRows_elim hr
    constructor
    · intro hl
      have het : b.et = "load" := hl
      rcases flexBase_cases hb with h | h
      · exact (loadBase_spec b h).2.1
      · have hs := (sgenBase_spec b h).1
        rw [hs] at het
        exact absurd het (by decide)
    · intro hs
      have het : b.et = "sgen" := hs
      rcases flexBase_cases hb with h | h
      · have hl := (loadBase_spec b h).1
        rw [hl] at het
        exact absurd het (by decide)
      · exact (sgenBase_spec b h).2.1
  · with_unfolding_all decide

/-- C7 witness: row 0, a load row, resolves to a valid load-table
index, and the pair column of the whole table is duplicate free. -/
theorem C7_element_resolution_witness :
    flexRow0.element < theNet.load.length ∧
    (flexTable.map (fun r => (r.element, r.et))).Nodup :=
  ⟨(C7_element_resolution.1 flexRow0 flexRow0_mem).1 flexRow0_et,
   C7_element_resolution.2⟩

/-- C8: in the network returned by `test_case4`, every static-generator
row except the last has `p_mw` equal to 30 times the template value,
while the last sgen row (the wind turbine) keeps its template `p_mw`. -/
theorem C8_sgen_scaling :
    (∀ i, i < 8 →
      (theNet.sgen.map SgenRow.p_mw).getD i 0
        = 30 * (cigre_sgen.map SgenRow.p_mw).getD i 0) ∧
    (theNet.sgen.map SgenRow.p_mw).getD 8 0
        = (cigre_sgen.map SgenRow.p_mw).getD 8 0 ∧
    theNet.sgen.length = 9 := by
  refine ⟨?_, by with_unfolding_all decide, by with_unfolding_all decide⟩
  with_unfolding_all decide

/-- C8 witness: the scaling holds at the first sgen row. -/
theorem C8_sgen_scaling_witness :
    (theNet.sgen.map SgenRow.p_mw).getD 0 0
      = 30 * (cigre_sgen.map SgenRow.p_mw).getD 0 0 :=
  C8_sgen_scaling.1 0 (by decide)

/-- C9: every static-generator row of the flexibility table has an
`FPU_info` that is a reactive-power box dict with exactly the keys
q_min and q_max, with q_min = -q_max and q_max in [1, 2] (q_max is
1 + f for a pseudo-random f in [0, 1) rounded to 3 decimals). -/
theorem C9_sgen_box_info :
    ∀ r ∈ flexTable, r.et = "sgen" →
      ∃ b : ℚ, r.FPU_info = FPUInfo.box (-b) b ∧ 1 ≤ b ∧ b ≤ 2 := by
  intro r hr hs
  rw [flexTable_eq_rows] at hr
  obtain ⟨b0, uc, dc, hb, _, _, rfl⟩ := mem_flexRows_elim hr
  have het : b0.et = "sgen" := hs
  rcases flexBase_cases hb with h | h
  · have hl := (loadBase_spec b0 h).1
    rw [hl] at het
    exact absurd het (by decide)
  · obtain ⟨_, _, _, _, _, hinfo⟩ := sgenBase_spec b0 h
    obtain ⟨f, hf, hbox⟩ := extra_info_spec _ hinfo
    obtain ⟨hf0, hf1⟩ := fuzz_bounds f hf
    refine ⟨1 + f, ?_, by linarith, by linarith⟩
    have harg : (-1 - f : ℚ) = -(1 + f) := by ring
    calc (mkRow b0 uc dc).FPU_info = b0.FPU_info := rfl
      _ = FPUInfo.box (-1 - f) (1 + f) := hbox
      _ = FPUInfo.box (-(1 + f)) (1 + f) := by rw [harg]

/-- C9 witness: the box property holds at row 4, the first sgen row. -/
theorem C9_sgen_box_info_witness :
    ∃ b : ℚ, flexRow4.FPU_info = FPUInfo.box (-b) b ∧ 1 ≤ b ∧ b ≤ 2 :=
  C9_sgen_box_info flexRow4 flexRow4_mem flexRow4_et

/-- C10: every static-generator row of the flexibility table has
`up_quantity` equal to 1.1 times the unit's `p_mw` and `down_quantity`
equal to the unit's `p_mw`, hence `up_quantity = 1.1 * down_quantity`,
and upward flexibility is strictly positive whenever `p_mw` is. -/
theorem C10_sgen_quantities :
    ∀ r ∈ flexTable, r.et = "sgen" →
      r.up_quantity = 11/10 * (locSgen theNet.sgen r.element).p_mw ∧
      r.down_quantity = (locSgen theNet.sgen r.element).p_mw ∧
      r.up_quantity = 11/10 * r.down_quantity ∧
      (0 < (locSgen theNet.sgen r.element).p_mw → 0 < r.up_quantity) := by
  intro r hr hs
  rw [flexTable_eq_rows] at hr
  obtain ⟨b0, uc, dc, hb, _, _, rfl⟩ := mem_flexRows_elim hr
  have het : b0.et = "sgen" := hs
  rcases flexBase_cases hb with h | h
  · have hl := (loadBase_spec b0 h).1
    rw [hl] at het
    exact absurd het (by decide)
  · obtain ⟨_, _, _, hu, hd, _⟩ := sgenBase_spec b0 h
    refine ⟨hu, hd, ?_, ?_⟩
    · show b0.up_quantity = 11/10 * b0.down_quantity
      rw [hu, hd]
    · intro hpos
      show (0 : ℚ) < b0.up_quantity
      rw [hu]
      exact mul_pos (by norm_num) hpos

/-- C10 witness: the relation and strict positivity hold at row 4, the
first sgen row. -/
theorem C10_sgen_quantities_witness :
    flexRow4.up_quantity = 11/10 * flexRow4.down_quantity ∧
    0 < flexRow4.up_quantity :=
  ⟨(C10_sgen_quantities flexRow4 flexRow4_mem flexRow4_et).2.2.1,
   (C10_sgen_quantities flexRow4 flexRow4_mem flexRow4_et).2.2.2
     (by with_unfolding_all decide)⟩

end GTD
